import Mathlib

/-!
Shallow embedding of `src/app.py` (Yerevanyan Shawarma API): a FastAPI
service with a fixed four-item menu and an in-memory order store.

Python values that flow through the dynamically typed parts (dict keys of
`menu_items`, the `items` field of `Order`, which holds enum members after
creation but raw strings after an update) are modelled by `PyVal`, whose
equality mirrors Python equality: a `str` never equals an `Enum` member.

Module-level mutable state (`orders_storage`, `next_order_id`) is modelled
by `AppState` threaded explicitly through the handlers.  `datetime.now()`
is passed in as an abstract `now : Nat`.  Pydantic request validation
(`OrderCreate`: the `customer_name` validator and the coercion of each
item string into the `ShawarmaType` enum, both of which make FastAPI
answer 422 on failure) is modelled by `parseOrderCreate`, run before the
`create_order` handler by the endpoint function `post_orders`.
-/

namespace ShawarmaApp

/-- The `ShawarmaType(Enum)` of `app.py`: the closed set of 4 identifiers. -/
inductive ShawarmaType where
  | havov
  | tavarov
  | banjar
  | hatuk
deriving DecidableEq, Repr

/-- The `.value` of each enum member (the Armenian identifier string). -/
def ShawarmaType.value : ShawarmaType → String
  | .havov => "հավով"
  | .tavarov => "տավարով"
  | .banjar => "բանջարեղենով"
  | .hatuk => "հատուկ"

/-- The Python member name, as it appears in `repr` of a member. -/
def ShawarmaType.memberName : ShawarmaType → String
  | .havov => "HAVOV"
  | .tavarov => "TAVAROV"
  | .banjar => "BANJAR"
  | .hatuk => "HATUK"

/-- Pydantic coercion of a raw string into `ShawarmaType` (by value). -/
def ShawarmaType.ofString (s : String) : Option ShawarmaType :=
  if s = "հավով" then some .havov
  else if s = "տավարով" then some .tavarov
  else if s = "բանջարեղենով" then some .banjar
  else if s = "հատուկ" then some .hatuk
  else none

/-- A Python value as it appears in the dynamically typed spots of the app:
either a plain string or a `ShawarmaType` enum member.  Structural equality
mirrors Python: a string is never equal to an enum member. -/
inductive PyVal where
  | str (s : String)
  | enum (t : ShawarmaType)
deriving DecidableEq, Repr

/-- Python `repr` of such a value (enum repr as printed by CPython). -/
def PyVal.pyRepr : PyVal → String
  | .str s => "\x27" ++ s ++ "\x27"
  | .enum t => "<ShawarmaType." ++ t.memberName ++ ": \x27" ++ t.value ++ "\x27>"

/-- Python `str` of a list of values, as an f-string renders it. -/
def pyReprList (l : List PyVal) : String :=
  "[" ++ String.intercalate ", " (l.map PyVal.pyRepr) ++ "]"

/-- `ShawarmaItem` pydantic model: price / availability / prep time. -/
structure ShawarmaItem where
  name : ShawarmaType
  price : Nat
  available : Bool := true
  prep_time : Nat
deriving DecidableEq, Repr

/-- The `menu_items` dict of `app.py`.  Its keys are `ShawarmaType` enum
members (not strings), which is what makes the string lookup in
`get_menu_item` fail: we keep the keys at type `PyVal` to model the
dynamically typed dict faithfully. -/
def menu_items : List (PyVal × ShawarmaItem) :=
  [ (.enum .havov, { name := .havov, price := 1500, prep_time := 3 }),
    (.enum .tavarov, { name := .tavarov, price := 1800, prep_time := 4 }),
    (.enum .banjar, { name := .banjar, price := 1200, prep_time := 2 }),
    (.enum .hatuk, { name := .hatuk, price := 2200, prep_time := 6 }) ]

/-- Association-list lookup, modelling Python dict indexing / `in`. -/
def lookupKey {α β : Type} [DecidableEq α] : List (α × β) → α → Option β
  | [], _ => none
  | (k, v) :: rest, key => if k = key then some v else lookupKey rest key

/-- Dict assignment `d[k] = v`: replace the binding in place when the key
is present (keeping its position, as a Python dict does), else append. -/
def dictSet {α β : Type} [DecidableEq α] :
    List (α × β) → α → β → List (α × β)
  | [], k, v => [(k, v)]
  | (a, b) :: rest, k, v =>
    if a = k then (k, v) :: rest else (a, b) :: dictSet rest k v

/-- Dict deletion `del d[k]`. -/
def dictDel {α β : Type} [DecidableEq α] (d : List (α × β)) (k : α) :
    List (α × β) :=
  d.filter (fun p => decide (p.1 ≠ k))

/-- `fastapi.HTTPException`, as raised by the handlers. -/
structure HTTPException where
  status_code : Nat
  detail : String
deriving DecidableEq, Repr

/-- The success payload of `GET /menu/item_name`. -/
structure MenuItemView where
  name : ShawarmaType
  price : Nat
  available : Bool
  prep_time : Nat
deriving DecidableEq, Repr

/-- `get_menu_item` handler: `GET /menu/item_name`.  The path parameter is
a `str`; membership is tested against the enum-keyed `menu_items` dict. -/
def get_menu_item (item_name : String) : Except HTTPException MenuItemView :=
  match lookupKey menu_items (PyVal.str item_name) with
  | none =>
      .error ⟨404, item_name ++ " not found. Options are: " ++
        pyReprList (menu_items.map Prod.fst)⟩
  | some item => .ok ⟨item.name, item.price, item.available, item.prep_time⟩

/-- The stored `Order` pydantic model.  `items` holds `PyVal`s because the
create path stores enum members while the update path stores raw strings. -/
structure Order where
  id : Nat
  customer_name : String
  items : List PyVal
  status : String
  created_at : Nat
deriving DecidableEq, Repr

/-- `OrderCreate` after pydantic validation: name already stripped, items
already coerced into the enum. -/
structure OrderCreate where
  customer_name : String
  items : List ShawarmaType
  special_requests : String := ""
deriving DecidableEq, Repr

/-- `OrderResponse` pydantic model (the body of a successful POST). -/
structure OrderResponse where
  status : String
  order : Order
  message : String
deriving DecidableEq, Repr

/-- The module-level mutable state: `orders_storage` and `next_order_id`. -/
structure AppState where
  orders_storage : List (Nat × Order)
  next_order_id : Nat
deriving DecidableEq, Repr

/-- The state at process start: empty storage, counter at 1. -/
def initState : AppState := ⟨[], 1⟩

/-- Whitespace as Python `str.strip()` removes it (ASCII classes; the
exotic Unicode space classes are out of scope for this development). -/
def pyIsSpace (c : Char) : Bool :=
  c = ' ' || c = '\t' || c = '\n' || c = '\r' || c = '\x0b' || c = '\x0c'

/-- Python `str.strip()`: drop leading and trailing whitespace. -/
def pyStrip (s : String) : String :=
  ⟨((s.data.dropWhile pyIsSpace).reverse.dropWhile pyIsSpace).reverse⟩

/-- Python `len` on a string: its number of code points. -/
def pyLen (s : String) : Nat := s.data.length

/-- The `validate_name` field validator of `OrderCreate`: reject when the
stripped name has fewer than 2 characters, otherwise keep the stripped name. -/
def validate_name (v : String) : Except String String :=
  if pyLen (pyStrip v) < 2 then .error "Անունը պետք է լինի նվազագույնը 2 տառ"
  else .ok (pyStrip v)

/-- Pydantic coercion of the `items` field: every element must be one of
the 4 enum values, otherwise the request fails validation. -/
def parseItems : List String → Except String (List ShawarmaType)
  | [] => .ok []
  | s :: rest =>
    match ShawarmaType.ofString s with
    | none => .error ("Input should be a valid ShawarmaType: " ++ s)
    | some t =>
      match parseItems rest with
      | .error e => .error e
      | .ok ts => .ok (t :: ts)

/-- Request-body validation of `POST /orders` (pydantic on `OrderCreate`);
a failure is surfaced by FastAPI as a 422 response. -/
def parseOrderCreate (customer_name : String) (items : List String)
    (special_requests : String) : Except HTTPException OrderCreate :=
  match validate_name customer_name with
  | .error e => .error ⟨422, e⟩
  | .ok name =>
    match parseItems items with
    | .error e => .error ⟨422, e⟩
    | .ok ts => .ok ⟨name, ts, special_requests⟩

/-- The `create_order` handler body (after validation): allocate
`next_order_id`, store the new order with status `"Ընթացքում ա"`,
increment the counter, answer with an `OrderResponse`. -/
def create_order (st : AppState) (order_data : OrderCreate) (now : Nat) :
    OrderResponse × AppState :=
  let new_order : Order :=
    ⟨st.next_order_id, order_data.customer_name,
      order_data.items.map PyVal.enum, "Ընթացքում ա", now⟩
  let st2 : AppState :=
    ⟨dictSet st.orders_storage st.next_order_id new_order, st.next_order_id + 1⟩
  (⟨"Պատրաստ ա", new_order,
     "Պատվեր #" ++ toString new_order.id ++ " ստեղծվեց:"⟩, st2)

/-- `POST /orders` end to end: pydantic validation then the handler. -/
def post_orders (st : AppState) (customer_name : String) (items : List String)
    (special_requests : String) (now : Nat) :
    Except HTTPException OrderResponse × AppState :=
  match parseOrderCreate customer_name items special_requests with
  | .error e => (.error e, st)
  | .ok od =>
    let r := create_order st od now
    (.ok r.1, r.2)

/-- `get_order` handler: `GET /orders/order_id`. -/
def get_order (st : AppState) (order_id : Nat) : Except HTTPException Order :=
  match lookupKey st.orders_storage order_id with
  | none => .error ⟨404, "Պատվեր #" ++ toString order_id ++ " չի գտնվել"⟩
  | some o => .ok o

/-- `update_order` handler: `PUT /orders/order_id` with a raw string list.
404 when absent, 422 when the status is not `"Ընթացքում ա"`, otherwise
replace `items` in place (the stored record is the returned record). -/
def update_order (st : AppState) (order_id : Nat) (new_items : List String) :
    Except HTTPException Order × AppState :=
  match lookupKey st.orders_storage order_id with
  | none =>
      (.error ⟨404, "Պատվեր #" ++ toString order_id ++ " չի գտնվել"⟩, st)
  | some order =>
    if order.status ≠ "Ընթացքում ա" then
      (.error ⟨422, "Պատրաստ պատվերը չի կարելի փոխել"⟩, st)
    else
      let updated : Order := { order with items := new_items.map PyVal.str }
      (.ok updated, ⟨dictSet st.orders_storage order_id updated, st.next_order_id⟩)

/-- `cancel_order` handler: `DELETE /orders/order_id`.  404 when absent,
422 when the status equals `"պատրաստ"`, otherwise hard-delete the record. -/
def cancel_order (st : AppState) (order_id : Nat) :
    Except HTTPException String × AppState :=
  match lookupKey st.orders_storage order_id with
  | none =>
      (.error ⟨404, "Պատվեր #" ++ toString order_id ++ " չի գտնվել"⟩, st)
  | some order =>
    if order.status = "պատրաստ" then
      (.error ⟨422, "Պատրաստ պատվերը չի կարելի չեղարկել"⟩, st)
    else
      (.ok ("Պատվեր #" ++ toString order_id ++ " չեղարկվեց"),
       ⟨dictDel st.orders_storage order_id, st.next_order_id⟩)

/-- One successful state-changing API call (the read-only endpoints and the
failing calls leave the state unchanged). -/
inductive Step : AppState → AppState → Prop where
  | create (name : String) (items : List String) (sr : String) (now : Nat)
      (resp : OrderResponse) (st st2 : AppState) :
      post_orders st name items sr now = (.ok resp, st2) → Step st st2
  | update (id : Nat) (items : List String) (o : Order) (st st2 : AppState) :
      update_order st id items = (.ok o, st2) → Step st st2
  | cancel (id : Nat) (m : String) (st st2 : AppState) :
      cancel_order st id = (.ok m, st2) → Step st st2

/-- States reachable from process start through the public operations. -/
inductive Reachable : AppState → Prop where
  | init : Reachable initState
  | step {s s2 : AppState} : Reachable s → Step s s2 → Reachable s2

/-- The store invariant: the counter is at least 1, keys match the stored
order ids, ids are positive and below the counter, and every stored order
has the creation-time status. -/
def StateInv (st : AppState) : Prop :=
  1 ≤ st.next_order_id ∧
  ∀ p ∈ st.orders_storage,
    p.2.id = p.1 ∧ 1 ≤ p.1 ∧ p.1 < st.next_order_id ∧
    p.2.status = "Ընթացքում ա"

/-- A stored order already carrying the terminal label (used as a concrete
test state: not reachable through the API, but `cancel_order` and
`update_order` are defined on any stored order). -/
def readyOrder : Order :=
  ⟨1, "Անի", [PyVal.enum .havov], "պատրաստ", 0⟩

/-- A stored order still carrying the creation-time label. -/
def inProgressOrder : Order :=
  ⟨2, "Արամ", [PyVal.enum .tavarov], "Ընթացքում ա", 0⟩

/-- A concrete two-order store used to exercise the theorems. -/
def witnessState : AppState :=
  ⟨[(1, readyOrder), (2, inProgressOrder)], 3⟩

/-- The response of the first successful create on a fresh store. -/
def R0 : OrderResponse :=
  ⟨"Պատրաստ ա", ⟨1, "Hayk", [PyVal.enum .havov], "Ընթացքում ա", 0⟩,
   "Պատվեր #1 ստեղծվեց:"⟩

/-- The store after that first create. -/
def S0 : AppState :=
  ⟨[(1, ⟨1, "Hayk", [PyVal.enum .havov], "Ընթացքում ա", 0⟩)], 2⟩

/-- The store left after cancelling order 2 of `witnessState`. -/
def S1 : AppState := ⟨[(1, readyOrder)], 3⟩

/-! ### Dictionary lemmas -/

theorem lookupKey_dictSet_self {α β : Type} [DecidableEq α]
    (d : List (α × β)) (k : α) (v : β) :
    lookupKey (dictSet d k v) k = some v := by
  induction d with
  | nil => simp [dictSet, lookupKey]
  | cons p rest ih =>
    obtain ⟨a, b⟩ := p
    by_cases hk : a = k
    · subst hk
      simp [dictSet, lookupKey]
    · simp [dictSet, lookupKey, hk, ih]

theorem mem_dictSet {α β : Type} [DecidableEq α] {d : List (α × β)}
    {k : α} {v : β} {p : α × β} (h : p ∈ dictSet d k v) :
    p ∈ d ∨ p = (k, v) := by
  induction d with
  | nil =>
    simp [dictSet] at h
    exact Or.inr h
  | cons q rest ih =>
    obtain ⟨a, b⟩ := q
    by_cases hk : a = k
    · subst hk
      simp only [dictSet, if_pos rfl] at h
      rcases List.mem_cons.mp h with h1 | h1
      · exact Or.inr h1
      · exact Or.inl (List.mem_cons_of_mem _ h1)
    · simp only [dictSet, if_neg hk] at h
      rcases List.mem_cons.mp h with h1 | h1
      · exact Or.inl (by simp [h1])
      · rcases ih h1 with h2 | h2
        · exact Or.inl (List.mem_cons_of_mem _ h2)
        · exact Or.inr h2

theorem mem_dictDel {α β : Type} [DecidableEq α] {d : List (α × β)}
    {k : α} {p : α × β} (h : p ∈ dictDel d k) : p ∈ d ∧ p.1 ≠ k := by
  unfold dictDel at h
  have hf := List.mem_filter.mp h
  exact ⟨hf.1, by simpa using hf.2⟩

theorem lookupKey_dictDel_self {α β : Type} [DecidableEq α]
    (d : List (α × β)) (k : α) :
    lookupKey (dictDel d k) k = none := by
  induction d with
  | nil => rfl
  | cons p rest ih =>
    obtain ⟨a, b⟩ := p
    by_cases hk : a = k
    · simpa [dictDel, List.filter_cons, hk] using ih
    · simpa [dictDel, List.filter_cons, lookupKey, hk] using ih

theorem lookupKey_mem {α β : Type} [DecidableEq α] {d : List (α × β)}
    {k : α} {v : β} (h : lookupKey d k = some v) : (k, v) ∈ d := by
  induction d with
  | nil => simp [lookupKey] at h
  | cons p rest ih =>
    obtain ⟨a, b⟩ := p
    by_cases hk : a = k
    · subst hk
      simp [lookupKey] at h
      subst h
      exact List.mem_cons_self _ _
    · simp [lookupKey, hk] at h
      exact List.mem_cons_of_mem _ (ih h)

/-! ### Inversion lemmas for the successful handler runs -/

theorem post_orders_ok {st st2 : AppState} {resp : OrderResponse}
    {name sr : String} {items : List String} {now : Nat}
    (h : post_orders st name items sr now = (.ok resp, st2)) :
    ∃ od, parseOrderCreate name items sr = .ok od ∧
      resp = (create_order st od now).1 ∧ st2 = (create_order st od now).2 := by
  unfold post_orders at h
  cases hp : parseOrderCreate name items sr with
  | error e =>
    rw [hp] at h
    simp at h
  | ok od =>
    rw [hp] at h
    simp at h
    exact ⟨od, rfl, h.1.symm, h.2.symm⟩

theorem update_order_ok {st st2 : AppState} {id : Nat} {its : List String}
    {o : Order} (h : update_order st id its = (.ok o, st2)) :
    ∃ w, lookupKey st.orders_storage id = some w ∧
      w.status = "Ընթացքում ա" ∧ o = { w with items := its.map PyVal.str } ∧
      st2 = ⟨dictSet st.orders_storage id o, st.next_order_id⟩ := by
  unfold update_order at h
  cases hl : lookupKey st.orders_storage id with
  | none =>
    rw [hl] at h
    simp at h
  | some w =>
    rw [hl] at h
    have h2 : (if w.status ≠ "Ընթացքում ա" then
        (Except.error (HTTPException.mk 422 "Պատրաստ պատվերը չի կարելի փոխել"), st)
      else
        (Except.ok (Order.mk w.id w.customer_name (its.map PyVal.str)
            w.status w.created_at),
          AppState.mk (dictSet st.orders_storage id
              (Order.mk w.id w.customer_name (its.map PyVal.str)
                w.status w.created_at))
            st.next_order_id)) = (Except.ok o, st2) := h
    by_cases hs : w.status = "Ընթացքում ա"
    · rw [if_neg (by simp [hs])] at h2
      simp at h2
      exact ⟨w, rfl, hs, h2.1.symm, by rw [← h2.2, h2.1]⟩
    · rw [if_pos (by simp [hs])] at h2
      simp at h2

theorem cancel_order_ok {st st2 : AppState} {id : Nat} {m : String}
    (h : cancel_order st id = (.ok m, st2)) :
    ∃ w, lookupKey st.orders_storage id = some w ∧ w.status ≠ "պատրաստ" ∧
      st2 = ⟨dictDel st.orders_storage id, st.next_order_id⟩ := by
  unfold cancel_order at h
  cases hl : lookupKey st.orders_storage id with
  | none =>
    rw [hl] at h
    simp at h
  | some w =>
    rw [hl] at h
    by_cases hs : w.status = "պատրաստ"
    · simp [hs] at h
    · simp [hs] at h
      exact ⟨w, rfl, hs, h.2.symm⟩

/-! ### The reachability invariant -/

theorem stateInv_init : StateInv initState := by
  refine ⟨le_refl 1, ?_⟩
  intro p hp
  simp [initState] at hp

theorem stateInv_step {st st2 : AppState} (hinv : StateInv st)
    (h : Step st st2) : StateInv st2 := by
  obtain ⟨hc, hmem⟩ := hinv
  cases h with
  | create name items sr now resp stx st2x hcall =>
    obtain ⟨od, hp, hr, hst⟩ := post_orders_ok hcall
    subst hst
    simp only [create_order]
    refine ⟨Nat.le_succ_of_le hc, ?_⟩
    intro p hpmem
    rcases mem_dictSet hpmem with hold | hnew
    · obtain ⟨h1, h2, h3, h4⟩ := hmem p hold
      exact ⟨h1, h2, Nat.lt_succ_of_lt h3, h4⟩
    · subst hnew
      exact ⟨rfl, hc, Nat.lt_succ_self _, rfl⟩
  | update id items o stx st2x hcall =>
    obtain ⟨w, hl, hs, ho, hst⟩ := update_order_ok hcall
    subst hst
    refine ⟨hc, ?_⟩
    intro p hpmem
    rcases mem_dictSet hpmem with hold | hnew
    · exact hmem p hold
    · subst hnew
      obtain ⟨h1, h2, h3, _⟩ := hmem (id, w) (lookupKey_mem hl)
      subst ho
      exact ⟨h1, h2, h3, hs⟩
  | cancel id m stx st2x hcall =>
    obtain ⟨w, hl, hs, hst⟩ := cancel_order_ok hcall
    subst hst
    refine ⟨hc, ?_⟩
    intro p hpmem
    exact hmem p (mem_dictDel hpmem).1

theorem reachable_stateInv {st : AppState} (h : Reachable st) : StateInv st := by
  induction h with
  | init => exact stateInv_init
  | step _ hs ih => exact stateInv_step ih hs

theorem step_counter_mono {st st2 : AppState} (h : Step st st2) :
    st.next_order_id ≤ st2.next_order_id := by
  cases h with
  | create name items sr now resp stx st2x hcall =>
    obtain ⟨od, _, _, hst⟩ := post_orders_ok hcall
    subst hst
    simp [create_order]
  | update id items o stx st2x hcall =>
    obtain ⟨w, _, _, _, hst⟩ := update_order_ok hcall
    subst hst
    exact le_refl _
  | cancel id m stx st2x hcall =>
    obtain ⟨w, _, _, hst⟩ := cancel_order_ok hcall
    subst hst
    exact le_refl _

/-! ### Pydantic parsing lemmas -/

theorem ofString_value (t : ShawarmaType) :
    ShawarmaType.ofString t.value = some t := by
  cases t <;> decide

theorem parseItems_map_value (ts : List ShawarmaType) :
    parseItems (ts.map ShawarmaType.value) = .ok ts := by
  induction ts with
  | nil => rfl
  | cons t rest ih => simp [parseItems, ofString_value, ih]

/-! ### Branch equations for the handlers -/

theorem update_order_absent {st : AppState} {id : Nat} (new_items : List String)
    (h : lookupKey st.orders_storage id = none) :
    update_order st id new_items =
      (.error ⟨404, "Պատվեր #" ++ toString id ++ " չի գտնվել"⟩, st) := by
  unfold update_order
  rw [h]

theorem update_order_not_inprogress {st : AppState} {id : Nat} {o : Order}
    (new_items : List String) (h : lookupKey st.orders_storage id = some o)
    (hs : o.status ≠ "Ընթացքում ա") :
    update_order st id new_items =
      (.error ⟨422, "Պատրաստ պատվերը չի կարելի փոխել"⟩, st) := by
  unfold update_order
  rw [h]
  simp [hs]

theorem update_order_inprogress {st : AppState} {id : Nat} {o : Order}
    (new_items : List String) (h : lookupKey st.orders_storage id = some o)
    (hs : o.status = "Ընթացքում ա") :
    update_order st id new_items =
      (.ok { o with items := new_items.map PyVal.str },
       ⟨dictSet st.orders_storage id { o with items := new_items.map PyVal.str },
        st.next_order_id⟩) := by
  unfold update_order
  rw [h]
  show (if o.status ≠ "Ընթացքում ա" then
      (Except.error (HTTPException.mk 422 "Պատրաստ պատվերը չի կարելի փոխել"), st)
    else
      (Except.ok (Order.mk o.id o.customer_name (new_items.map PyVal.str)
          o.status o.created_at),
        AppState.mk (dictSet st.orders_storage id
            (Order.mk o.id o.customer_name (new_items.map PyVal.str)
              o.status o.created_at))
          st.next_order_id)) = _
  rw [if_neg (by simp [hs])]

theorem cancel_order_absent {st : AppState} {id : Nat}
    (h : lookupKey st.orders_storage id = none) :
    cancel_order st id =
      (.error ⟨404, "Պատվեր #" ++ toString id ++ " չի գտնվել"⟩, st) := by
  unfold cancel_order
  rw [h]

theorem cancel_order_terminal {st : AppState} {id : Nat} {o : Order}
    (h : lookupKey st.orders_storage id = some o)
    (hs : o.status = "պատրաստ") :
    cancel_order st id =
      (.error ⟨422, "Պատրաստ պատվերը չի կարելի չեղարկել"⟩, st) := by
  unfold cancel_order
  rw [h]
  simp [hs]

theorem cancel_order_success {st : AppState} {id : Nat} {o : Order}
    (h : lookupKey st.orders_storage id = some o)
    (hs : o.status ≠ "պատրաստ") :
    cancel_order st id =
      (.ok ("Պատվեր #" ++ toString id ++ " չեղարկվեց"),
       ⟨dictDel st.orders_storage id, st.next_order_id⟩) := by
  unfold cancel_order
  rw [h]
  simp [hs]

theorem validate_name_ok {name : String} (hlen : 2 ≤ pyLen (pyStrip name)) :
    validate_name name = .ok (pyStrip name) := by
  unfold validate_name
  rw [if_neg (by omega)]

theorem validate_name_short {name : String} (hlen : pyLen (pyStrip name) < 2) :
    validate_name name = .error "Անունը պետք է լինի նվազագույնը 2 տառ" := by
  unfold validate_name
  rw [if_pos hlen]

theorem parseItems_error_of_mem {l : List String} {s : String}
    (hmem : s ∈ l) (hbad : ShawarmaType.ofString s = none) :
    ∃ e, parseItems l = .error e := by
  induction l with
  | nil => cases hmem
  | cons a rest ih =>
    rcases List.mem_cons.mp hmem with rfl | hmem2
    · refine ⟨"Input should be a valid ShawarmaType: " ++ s, ?_⟩
      simp [parseItems, hbad]
    · cases ho : ShawarmaType.ofString a with
      | none =>
        refine ⟨"Input should be a valid ShawarmaType: " ++ a, ?_⟩
        simp [parseItems, ho]
      | some t =>
        obtain ⟨e, he⟩ := ih hmem2
        exact ⟨e, by simp [parseItems, ho, he]⟩

theorem post_orders_success (st : AppState) (name sr : String) (now : Nat)
    (ts : List ShawarmaType) (hlen : 2 ≤ pyLen (pyStrip name)) :
    post_orders st name (ts.map ShawarmaType.value) sr now =
      (.ok ⟨"Պատրաստ ա",
         ⟨st.next_order_id, pyStrip name, ts.map PyVal.enum, "Ընթացքում ա", now⟩,
         "Պատվեր #" ++ toString st.next_order_id ++ " ստեղծվեց:"⟩,
       ⟨dictSet st.orders_storage st.next_order_id
          ⟨st.next_order_id, pyStrip name, ts.map PyVal.enum, "Ընթացքում ա", now⟩,
        st.next_order_id + 1⟩) := by
  simp [post_orders, parseOrderCreate, validate_name_ok hlen,
    parseItems_map_value, create_order]

theorem post_orders_name_short (st : AppState) (name sr : String)
    (raw : List String) (now : Nat) (hlen : pyLen (pyStrip name) < 2) :
    post_orders st name raw sr now =
      (.error ⟨422, "Անունը պետք է լինի նվազագույնը 2 տառ"⟩, st) := by
  simp [post_orders, parseOrderCreate, validate_name_short hlen]

theorem post_orders_bad_item {s : String} {items : List String}
    (hmem : s ∈ items) (hbad : ShawarmaType.ofString s = none)
    (st : AppState) (name sr : String) (now : Nat) :
    ∃ e : HTTPException, e.status_code = 422 ∧
      post_orders st name items sr now = (.error e, st) := by
  cases hv : validate_name name with
  | error e =>
    exact ⟨⟨422, e⟩, rfl, by simp [post_orders, parseOrderCreate, hv]⟩
  | ok nm =>
    obtain ⟨e, he⟩ := parseItems_error_of_mem hmem hbad
    exact ⟨⟨422, e⟩, rfl, by simp [post_orders, parseOrderCreate, hv, he]⟩

/-! ### The claims -/

/-- C1: the claim says a valid menu identifier gets a 200 with the item
data, but `get_menu_item` can never take its success branch: the
`menu_items` dict is keyed by `ShawarmaType` enum members while the path
parameter is a `str`, and in Python a string never equals an enum member,
so every request — including one for the valid identifier "հավով" — gets
the 404 response listing the valid options.  The success branch of the
handler is dead code. -/
theorem claim_C1_menu_success_branch_dead :
    (∀ s : String, get_menu_item s =
      .error ⟨404, s ++ " not found. Options are: " ++
        pyReprList (menu_items.map Prod.fst)⟩) ∧
    get_menu_item "հավով" =
      .error ⟨404, "հավով not found. Options are: [<ShawarmaType.HAVOV: \x27հավով\x27>, <ShawarmaType.TAVAROV: \x27տավարով\x27>, <ShawarmaType.BANJAR: \x27բանջարեղենով\x27>, <ShawarmaType.HATUK: \x27հատուկ\x27>]"⟩ := by
  exact ⟨fun s => rfl, rfl⟩

/-- C2: for an order id present in the store, `cancel_order` answers 422
leaving the state unchanged when the stored status equals the terminal
label "պատրաստ" (an order so marked can never be cancelled), and otherwise
hard-deletes the record (the id no longer resolves) and returns the
confirmation message. -/
theorem claim_C2_cancel_terminal_or_delete (st : AppState) (id : Nat)
    (o : Order) (h : lookupKey st.orders_storage id = some o) :
    (o.status = "պատրաստ" →
      cancel_order st id =
        (.error ⟨422, "Պատրաստ պատվերը չի կարելի չեղարկել"⟩, st)) ∧
    (o.status ≠ "պատրաստ" →
      cancel_order st id =
        (.ok ("Պատվեր #" ++ toString id ++ " չեղարկվեց"),
         ⟨dictDel st.orders_storage id, st.next_order_id⟩) ∧
      lookupKey (dictDel st.orders_storage id) id = none) :=
  ⟨fun hs => cancel_order_terminal h hs,
   fun hs => ⟨cancel_order_success h hs, lookupKey_dictDel_self _ _⟩⟩

/-- C2 witness: cancelling the terminal order of the concrete store. -/
theorem claim_C2_cancel_terminal_or_delete_witness :
    cancel_order witnessState 1 =
      (.error ⟨422, "Պատրաստ պատվերը չի կարելի չեղարկել"⟩, witnessState) :=
  (claim_C2_cancel_terminal_or_delete witnessState 1 readyOrder
    (by decide)).1 (by decide)

/-- C3: `update_order` answers 404 when the id is absent, 422 when the
stored status is not the in-progress label, and otherwise replaces the
items of the stored record with the new list (as raw strings), stores it
and returns the updated record. -/
theorem claim_C3_update_branches (st : AppState) (id : Nat)
    (new_items : List String) :
    (lookupKey st.orders_storage id = none →
      update_order st id new_items =
        (.error ⟨404, "Պատվեր #" ++ toString id ++ " չի գտնվել"⟩, st)) ∧
    (∀ o, lookupKey st.orders_storage id = some o →
      (o.status ≠ "Ընթացքում ա" →
        update_order st id new_items =
          (.error ⟨422, "Պատրաստ պատվերը չի կարելի փոխել"⟩, st)) ∧
      (o.status = "Ընթացքում ա" →
        update_order st id new_items =
          (.ok { o with items := new_items.map PyVal.str },
           ⟨dictSet st.orders_storage id
              { o with items := new_items.map PyVal.str },
            st.next_order_id⟩) ∧
        lookupKey (update_order st id new_items).2.orders_storage id =
          some { o with items := new_items.map PyVal.str })) :=
  ⟨fun h => update_order_absent new_items h,
   fun o h =>
     ⟨fun hs => update_order_not_inprogress new_items h hs,
      fun hs =>
        ⟨update_order_inprogress new_items h hs, by
          rw [update_order_inprogress new_items h hs]
          exact lookupKey_dictSet_self _ _ _⟩⟩⟩

/-- C3 witness: updating the terminal order of the concrete store is
refused with 422. -/
theorem claim_C3_update_branches_witness :
    update_order witnessState 1 ["havov"] =
      (.error ⟨422, "Պատրաստ պատվերը չի կարելի փոխել"⟩, witnessState) :=
  ((claim_C3_update_branches witnessState 1 ["havov"]).2 readyOrder
    (by decide)).1 (by decide)

/-- C4: with a trimmed name of length at least 2 the POST succeeds,
allocating `next_order_id`, storing a record whose status is the
creation-time label and whose customer name is the trimmed input, and
returning the created record; with a trimmed name shorter than 2 (an
all-whitespace name trims to length 0) it fails with the 422 validation
error whatever the items are. -/
theorem claim_C4_create_validation (st : AppState) (name sr : String)
    (now : Nat) :
    (∀ ts : List ShawarmaType, 2 ≤ pyLen (pyStrip name) →
      post_orders st name (ts.map ShawarmaType.value) sr now =
        (.ok ⟨"Պատրաստ ա",
           ⟨st.next_order_id, pyStrip name, ts.map PyVal.enum, "Ընթացքում ա", now⟩,
           "Պատվեր #" ++ toString st.next_order_id ++ " ստեղծվեց:"⟩,
         ⟨dictSet st.orders_storage st.next_order_id
            ⟨st.next_order_id, pyStrip name, ts.map PyVal.enum, "Ընթացքում ա", now⟩,
          st.next_order_id + 1⟩)) ∧
    (∀ raw : List String, pyLen (pyStrip name) < 2 →
      post_orders st name raw sr now =
        (.error ⟨422, "Անունը պետք է լինի նվազագույնը 2 տառ"⟩, st)) :=
  ⟨fun ts hlen => post_orders_success st name sr now ts hlen,
   fun raw hlen => post_orders_name_short st name sr raw now hlen⟩

/-- C4 witness: the spec scenario (name " An ", one item) creates order 1
with trimmed name, and a 1-letter name is rejected. -/
theorem claim_C4_create_validation_witness :
    post_orders initState " An "
        ([ShawarmaType.havov].map ShawarmaType.value) "" 0 =
      (.ok ⟨"Պատրաստ ա",
         ⟨initState.next_order_id, pyStrip " An ",
           [ShawarmaType.havov].map PyVal.enum, "Ընթացքում ա", 0⟩,
         "Պատվեր #" ++ toString initState.next_order_id ++ " ստեղծվեց:"⟩,
       ⟨dictSet initState.orders_storage initState.next_order_id
          ⟨initState.next_order_id, pyStrip " An ",
            [ShawarmaType.havov].map PyVal.enum, "Ընթացքում ա", 0⟩,
        initState.next_order_id + 1⟩) ∧
    post_orders initState "Ա" ["տավարով"] "" 0 =
      (.error ⟨422, "Անունը պետք է լինի նվազագույնը 2 տառ"⟩, initState) :=
  ⟨(claim_C4_create_validation initState " An " "" 0).1 [ShawarmaType.havov]
     (by decide),
   (claim_C4_create_validation initState "Ա" "" 0).2 ["տավարով"] (by decide)⟩

/-- C5 counterexample: order creation DOES cross-validate the item
identifiers.  "pizza" is not one of the 4 menu values, and a POST carrying
it is rejected with a 422 validation error instead of storing the order,
so "neither order creation nor item update cross-validates" is false at
this input. -/
theorem claim_C5_counterexample_create_validates :
    ShawarmaType.ofString "pizza" = none ∧
    lookupKey menu_items (PyVal.str "pizza") = none ∧
    post_orders initState "Hayk" ["pizza"] "" 0 =
      (.error ⟨422, "Input should be a valid ShawarmaType: pizza"⟩,
       initState) :=
  ⟨rfl, rfl, rfl⟩

/-- C5 amended: only `update_order` skips cross-validation — it accepts
any raw identifier strings and stores them verbatim — while order creation
rejects a request whose items contain an identifier outside the closed set
of 4 values with a 422 validation error. -/
theorem claim_C5_update_unvalidated_create_validated (st : AppState)
    (id : Nat) (o : Order) (raw : List String) (st2 : AppState)
    (name sr : String) (items : List String) (now : Nat) (s : String)
    (h : lookupKey st.orders_storage id = some o)
    (hs : o.status = "Ընթացքում ա")
    (hmem : s ∈ items) (hbad : ShawarmaType.ofString s = none) :
    update_order st id raw =
      (.ok { o with items := raw.map PyVal.str },
       ⟨dictSet st.orders_storage id { o with items := raw.map PyVal.str },
        st.next_order_id⟩) ∧
    ∃ e : HTTPException, e.status_code = 422 ∧
      post_orders st2 name items sr now = (.error e, st2) :=
  ⟨update_order_inprogress raw h hs, post_orders_bad_item hmem hbad st2 name sr now⟩

/-- C5 witness: an in-progress order is updated to the non-menu item
"pizza" without complaint, while creating with "pizza" fails. -/
theorem claim_C5_update_unvalidated_create_validated_witness :
    update_order witnessState 2 ["pizza"] =
      (.ok { inProgressOrder with items := ["pizza"].map PyVal.str },
       ⟨dictSet witnessState.orders_storage 2
          { inProgressOrder with items := ["pizza"].map PyVal.str },
        witnessState.next_order_id⟩) ∧
    ∃ e : HTTPException, e.status_code = 422 ∧
      post_orders initState "Hayk" ["pizza"] "" 0 = (.error e, initState) :=
  claim_C5_update_unvalidated_create_validated witnessState 2 inProgressOrder
    ["pizza"] initState "Hayk" "" ["pizza"] 0 "pizza"
    (by decide) (by decide) (by decide) (by decide)

/-- C6: on every reachable store the counter starts at 1, every stored id
is positive, below the counter and equal to its key, a successful create
returns exactly the counter value — strictly above every stored id — and
bumps the counter, cancellation keeps the counter, and no successful
operation ever decreases it. -/
theorem claim_C6_ids_strictly_increasing (st : AppState)
    (h : Reachable st) :
    initState.next_order_id = 1 ∧
    (∀ p ∈ st.orders_storage,
      p.2.id = p.1 ∧ 1 ≤ p.2.id ∧ p.2.id < st.next_order_id) ∧
    (∀ name items sr now resp st2,
      post_orders st name items sr now = (.ok resp, st2) →
      resp.order.id = st.next_order_id ∧
      (∀ p ∈ st.orders_storage, p.2.id < resp.order.id) ∧
      st2.next_order_id = st.next_order_id + 1) ∧
    (∀ id m st2, cancel_order st id = (.ok m, st2) →
      st2.next_order_id = st.next_order_id) ∧
    (∀ st2, Step st st2 → st.next_order_id ≤ st2.next_order_id) := by
  obtain ⟨hc, hmem⟩ := reachable_stateInv h
  refine ⟨rfl, ?_, ?_, ?_, fun st2 hstep => step_counter_mono hstep⟩
  · intro p hp
    obtain ⟨h1, h2, h3, _⟩ := hmem p hp
    exact ⟨h1, h1 ▸ h2, h1 ▸ h3⟩
  · intro name items sr now resp st2 hcall
    obtain ⟨od, hp, hr, hst⟩ := post_orders_ok hcall
    subst hr
    subst hst
    refine ⟨rfl, ?_, rfl⟩
    intro p hp
    obtain ⟨h1, _, h3, _⟩ := hmem p hp
    exact h1 ▸ h3
  · intro id m st2 hcall
    obtain ⟨w, _, _, hst⟩ := cancel_order_ok hcall
    subst hst
    rfl

/-- C6 witness: the first create on the fresh store yields id 1 and bumps
the counter to 2. -/
theorem claim_C6_ids_strictly_increasing_witness :
    R0.order.id = initState.next_order_id ∧
    S0.next_order_id = initState.next_order_id + 1 :=
  ⟨((claim_C6_ids_strictly_increasing initState Reachable.init).2.2.1
      "Hayk" ["հավով"] "" 0 R0 S0 (by rfl)).1,
   ((claim_C6_ids_strictly_increasing initState Reachable.init).2.2.1
      "Hayk" ["հավով"] "" 0 R0 S0 (by rfl)).2.2⟩

/-- C7: a successful cancel presupposes the id was stored, produces exactly
the hard-deleted store, after which the id resolves to nothing and
`get_order` answers 404. -/
theorem claim_C7_cancel_then_get_404 (st : AppState) (id : Nat) (m : String)
    (st2 : AppState) (h : cancel_order st id = (.ok m, st2)) :
    (∃ o, lookupKey st.orders_storage id = some o) ∧
    st2 = ⟨dictDel st.orders_storage id, st.next_order_id⟩ ∧
    lookupKey st2.orders_storage id = none ∧
    get_order st2 id =
      .error ⟨404, "Պատվեր #" ++ toString id ++ " չի գտնվել"⟩ := by
  obtain ⟨w, hl, hs, hst⟩ := cancel_order_ok h
  subst hst
  have hnone : lookupKey (dictDel st.orders_storage id) id = none :=
    lookupKey_dictDel_self _ _
  exact ⟨⟨w, hl⟩, rfl, hnone, by simp [get_order, hnone]⟩

/-- C7 witness: cancelling the in-progress order 2 of the concrete store
and then fetching it gives 404. -/
theorem claim_C7_cancel_then_get_404_witness :
    (∃ o, lookupKey witnessState.orders_storage 2 = some o) ∧
    S1 = ⟨dictDel witnessState.orders_storage 2, witnessState.next_order_id⟩ ∧
    lookupKey S1.orders_storage 2 = none ∧
    get_order S1 2 =
      .error ⟨404, "Պատվեր #" ++ toString 2 ++ " չի գտնվել"⟩ :=
  claim_C7_cancel_then_get_404 witnessState 2 "Պատվեր #2 չեղարկվեց" S1
    (by rfl)

/-- C8: immediately after a successful create, `get_order` on the returned
id gives back exactly the record the create returned. -/
theorem claim_C8_create_get_roundtrip (st : AppState) (name sr : String)
    (items : List String) (now : Nat) (resp : OrderResponse) (st2 : AppState)
    (h : post_orders st name items sr now = (.ok resp, st2)) :
    get_order st2 resp.order.id = .ok resp.order := by
  obtain ⟨od, hp, hr, hst⟩ := post_orders_ok h
  subst hr
  subst hst
  simp [create_order, get_order, lookupKey_dictSet_self]

/-- C8 witness: the round trip at the first concrete create. -/
theorem claim_C8_create_get_roundtrip_witness :
    get_order S0 R0.order.id = .ok R0.order :=
  claim_C8_create_get_roundtrip initState "Hayk" "" ["հավով"] 0 R0 S0
    (by rfl)

/-- C9: updating a stored order whose status is the terminal label fails
with 422, the resulting state is the input state, and the stored record is
still found unchanged under its id. -/
theorem claim_C9_update_terminal_unmodified (st : AppState) (id : Nat)
    (o : Order) (new_items : List String)
    (h : lookupKey st.orders_storage id = some o)
    (hs : o.status = "պատրաստ") :
    update_order st id new_items =
      (.error ⟨422, "Պատրաստ պատվերը չի կարելի փոխել"⟩, st) ∧
    (update_order st id new_items).2 = st ∧
    lookupKey (update_order st id new_items).2.orders_storage id = some o := by
  have hne : o.status ≠ "Ընթացքում ա" := by
    rw [hs]
    decide
  have heq := update_order_not_inprogress new_items h hne
  refine ⟨heq, by rw [heq], by rw [heq]; exact h⟩

/-- C9 witness: updating the terminal order 1 of the concrete store. -/
theorem claim_C9_update_terminal_unmodified_witness :
    update_order witnessState 1 ["բանջարեղենով"] =
      (.error ⟨422, "Պատրաստ պատվերը չի կարելի փոխել"⟩, witnessState) ∧
    (update_order witnessState 1 ["բանջարեղենով"]).2 = witnessState ∧
    lookupKey (update_order witnessState 1 ["բանջարեղենով"]).2.orders_storage
      1 = some readyOrder :=
  claim_C9_update_terminal_unmodified witnessState 1 readyOrder
    ["բանջարեղենով"] (by decide) (by decide)

/-- C10: on every reachable store all orders carry the creation-time
status "Ընթացքում ա", so the only error either `cancel_order` or
`update_order` can produce is the 404 — their 422 InvalidState branches
are unreachable through the public operations. -/
theorem claim_C10_invalid_state_unreachable (st : AppState)
    (h : Reachable st) :
    (∀ p ∈ st.orders_storage, p.2.status = "Ընթացքում ա") ∧
    (∀ id e, (cancel_order st id).1 = .error e → e.status_code = 404) ∧
    (∀ id new_items e,
      (update_order st id new_items).1 = .error e → e.status_code = 404) := by
  obtain ⟨hc, hmem⟩ := reachable_stateInv h
  refine ⟨fun p hp => (hmem p hp).2.2.2, ?_, ?_⟩
  · intro id e he
    cases hl : lookupKey st.orders_storage id with
    | none =>
      rw [cancel_order_absent hl] at he
      simp at he
      simp [← he]
    | some o =>
      have hs : o.status = "Ընթացքում ա" :=
        (hmem (id, o) (lookupKey_mem hl)).2.2.2
      have hne : o.status ≠ "պատրաստ" := by
        rw [hs]
        decide
      rw [cancel_order_success hl hne] at he
      simp at he
  · intro id new_items e he
    cases hl : lookupKey st.orders_storage id with
    | none =>
      rw [update_order_absent new_items hl] at he
      simp at he
      simp [← he]
    | some o =>
      have hs : o.status = "Ընթացքում ա" :=
        (hmem (id, o) (lookupKey_mem hl)).2.2.2
      rw [update_order_inprogress new_items hl hs] at he
      simp at he

/-- C10 witness: on the fresh store the only cancel error is the 404. -/
theorem claim_C10_invalid_state_unreachable_witness :
    (cancel_order initState 5).1 =
      .error ⟨404, "Պատվեր #5 չի գտնվել"⟩ ∧
    (HTTPException.mk 404 "Պատվեր #5 չի գտնվել").status_code = 404 :=
  ⟨by rfl,
   (claim_C10_invalid_state_unreachable initState Reachable.init).2.1 5
     ⟨404, "Պատվեր #5 չի գտնվել"⟩ (by rfl)⟩

end ShawarmaApp
